import Mathlib

/-!
Verification of the MemoMarket pack-persistence backend
(`src-tauri/src/lib.rs`): the config store, the pack store, the
installed-set store and the MemoChat interop translator, embedded
shallowly over a JSON value type.

JSON text rendering and parsing are the serialization library's concern
(serde_json); the embedding works at the level of parsed JSON values, and
file-system state is passed explicitly (a file is `Option` of its parsed
contents, a directory a list of entries).
-/

/-- JSON values (serde_json `Value`). Objects keep their key order, as the
library's pretty-printer emits fields in declaration order. -/
inductive Json where
  | null : Json
  | bool : Bool → Json
  | num  : Int → Json
  | str  : String → Json
  | arr  : List Json → Json
  | obj  : List (String × Json) → Json
deriving Repr

/-- Model of `Value::as_str`. -/
def Json.asStr : Json → Option String
  | .str s => some s
  | _ => none

/-- Model of `Value::as_bool`. -/
def Json.asBool : Json → Option Bool
  | .bool b => some b
  | _ => none

/-- Model of `Value::as_array`. -/
def Json.asArr : Json → Option (List Json)
  | .arr xs => some xs
  | _ => none

/-- The field list of a JSON object (`none` for non-objects). -/
def Json.asObj : Json → Option (List (String × Json))
  | .obj kvs => some kvs
  | _ => none

/-- First value stored under key `k` in an object's field list. -/
def lookupField (kvs : List (String × Json)) (k : String) : Option Json :=
  match kvs with
  | [] => none
  | (k2, v) :: rest => if k = k2 then some v else lookupField rest k

/-- serde_json `Value` indexing `val[key]`: the field's value when present
in an object, `Null` otherwise. -/
def Json.getField (j : Json) (k : String) : Json :=
  match j with
  | .obj kvs => (lookupField kvs k).getD .null
  | _ => .null

/-- The top-level key list of a JSON object (empty for non-objects). -/
def Json.topKeys : Json → List String
  | .obj kvs => kvs.map Prod.fst
  | _ => []

/-- A required string field of a struct being deserialized: missing key or
non-string value is a deserialization error. -/
def reqStr (kvs : List (String × Json)) (k : String) : Option String :=
  (lookupField kvs k).bind Json.asStr

/-- A `#[serde(default)]` string field: an absent key defaults to `""`, a
present value must be a string. -/
def optStrField (kvs : List (String × Json)) (k : String) : Option String :=
  match lookupField kvs k with
  | none => some ""
  | some v => v.asStr

/-- A `#[serde(default)]` bool field: an absent key defaults to `false`, a
present value must be a boolean. -/
def optBoolField (kvs : List (String × Json)) (k : String) : Option Bool :=
  match lookupField kvs k with
  | none => some false
  | some v => v.asBool

/-- Deserialize every element or fail (serde's behaviour for `Vec<T>`). -/
def mapOption (f : α → Option β) : List α → Option (List β)
  | [] => some []
  | x :: xs => do
    let y ← f x
    let ys ← mapOption f xs
    pure (y :: ys)

/-- A `#[serde(default)]` sequence field: an absent key defaults to `[]`, a
present value must be an array of well-formed elements. -/
def optListField (kvs : List (String × Json)) (k : String) (p : Json → Option α) :
    Option (List α) :=
  match lookupField kvs k with
  | none => some []
  | some v => v.asArr.bind (mapOption p)

/-- The `Config` struct. -/
structure Config where
  api_key : String
  model_id : String
  base_url : String
  reasoning_enabled : Bool
  channels_json : String
deriving Repr, DecidableEq

/-- Deserialization of `Config`: `api_key`, `model_id`, `base_url` required
strings; `reasoning_enabled` and `channels_json` are `#[serde(default)]`. -/
def parseConfig (j : Json) : Option Config := do
  let kvs ← j.asObj
  let api_key ← reqStr kvs "api_key"
  let model_id ← reqStr kvs "model_id"
  let base_url ← reqStr kvs "base_url"
  let reasoning_enabled ← optBoolField kvs "reasoning_enabled"
  let channels_json ← optStrField kvs "channels_json"
  pure { api_key, model_id, base_url, reasoning_enabled, channels_json }

/-- Serialization of `Config`, fields in declaration order. -/
def configToJson (c : Config) : Json :=
  .obj [("api_key", .str c.api_key), ("model_id", .str c.model_id),
        ("base_url", .str c.base_url), ("reasoning_enabled", .bool c.reasoning_enabled),
        ("channels_json", .str c.channels_json)]

/-- The all-defaults `Config` built inline by `load_config`. -/
def defaultConfig : Config :=
  { api_key := "", model_id := "", base_url := "",
    reasoning_enabled := false, channels_json := "" }

/-- Model of `load_config`: the config file's state is `none` when the file is
absent, `some none` when it exists but its text is not valid JSON (an
unreadable file is read as the empty string by `unwrap_or_default` and hence
also fails to parse), and `some (some j)` when its text parses to the JSON
value `j`. A value that does not fit the `Config` shape falls back to the
defaults via `unwrap_or`. -/
def load_config (file : Option (Option Json)) : Config :=
  match file with
  | none => defaultConfig
  | some none => defaultConfig
  | some (some j) => (parseConfig j).getD defaultConfig

/-- Model of `save_config`: builds a `Config` from the five arguments, serializes it
and overwrites the config file; returns the written value and the write
success flag (the OS-level write is assumed to succeed). -/
def save_config (api_key model_id base_url : String) (reasoning_enabled : Bool)
    (channels_json : String) : Json × Bool :=
  (configToJson { api_key, model_id, base_url, reasoning_enabled, channels_json }, true)

/-- The `MemoRule` struct. -/
structure MemoRule where
  title : String
  update_rule : String
deriving Repr, DecidableEq

/-- The `Memo` struct. -/
structure Memo where
  title : String
  content : String
deriving Repr, DecidableEq

/-- The `RulePack` struct; `memos`, `tags`, `created_at`, `updated_at` are
`#[serde(default)]`. -/
structure RulePack where
  id : String
  name : String
  description : String
  author : String
  version : String
  system_prompt : String
  rules : List MemoRule
  memos : List Memo
  tags : List String
  created_at : String
  updated_at : String
deriving Repr, DecidableEq

/-- Deserialization of `MemoRule`: both string fields required. -/
def parseMemoRule (j : Json) : Option MemoRule := do
  let kvs ← j.asObj
  let title ← reqStr kvs "title"
  let update_rule ← reqStr kvs "update_rule"
  pure { title, update_rule }

/-- Deserialization of `Memo`: both string fields required. -/
def parseMemo (j : Json) : Option Memo := do
  let kvs ← j.asObj
  let title ← reqStr kvs "title"
  let content ← reqStr kvs "content"
  pure { title, content }

/-- Deserialization of `RulePack`. -/
def parseRulePack (j : Json) : Option RulePack := do
  let kvs ← j.asObj
  let id ← reqStr kvs "id"
  let name ← reqStr kvs "name"
  let description ← reqStr kvs "description"
  let author ← reqStr kvs "author"
  let version ← reqStr kvs "version"
  let system_prompt ← reqStr kvs "system_prompt"
  let rulesJson ← lookupField kvs "rules"
  let rulesArr ← rulesJson.asArr
  let rules ← mapOption parseMemoRule rulesArr
  let memos ← optListField kvs "memos" parseMemo
  let tags ← optListField kvs "tags" Json.asStr
  let created_at ← optStrField kvs "created_at"
  let updated_at ← optStrField kvs "updated_at"
  pure { id, name, description, author, version, system_prompt,
         rules, memos, tags, created_at, updated_at }

/-- Serialization of `MemoRule`. -/
def memoRuleToJson (r : MemoRule) : Json :=
  .obj [("title", .str r.title), ("update_rule", .str r.update_rule)]

/-- Serialization of `Memo`. -/
def memoToJson (m : Memo) : Json :=
  .obj [("title", .str m.title), ("content", .str m.content)]

/-- Serialization of `RulePack`, fields in declaration order. -/
def rulePackToJson (p : RulePack) : Json :=
  .obj [("id", .str p.id), ("name", .str p.name),
        ("description", .str p.description), ("author", .str p.author),
        ("version", .str p.version), ("system_prompt", .str p.system_prompt),
        ("rules", .arr (p.rules.map memoRuleToJson)),
        ("memos", .arr (p.memos.map memoToJson)),
        ("tags", .arr (p.tags.map Json.str)),
        ("created_at", .str p.created_at), ("updated_at", .str p.updated_at)]

/-- Model of `export_pack`: pretty-prints the pack as JSON, with no side effects;
modelled as the serialized JSON value. -/
def export_pack (p : RulePack) : Json := rulePackToJson p

/-- Model of `import_pack_json`: parses JSON text as a `RulePack`, reporting the
library's parse error message on failure (the message text is abstracted to
a fixed string, since no claim depends on its contents). -/
def import_pack_json (j : Json) : Except String RulePack :=
  match parseRulePack j with
  | some p => .ok p
  | none => .error "invalid RulePack JSON"

/-- One packs-directory entry as `load_packs` sees it: the file name's
extension (`Path::extension`), and the file's contents — `none` when the
file is unreadable or its text is not valid JSON, otherwise the parsed JSON
value. -/
structure DirEntry where
  ext : Option String
  content : Option Json

/-- Plain lexicographic comparison of character lists: Rust's `Ord` on
strings (byte order on UTF-8, which coincides with code-point order). -/
def lexLe : List Char → List Char → Bool
  | [], _ => true
  | _ :: _, [] => false
  | a :: as, b :: bs => if a < b then true else if b < a then false else lexLe as bs

/-- Whether `s <= t` under Rust's plain string comparison. -/
def strLe (s t : String) : Bool := lexLe s.data t.data

/-- The ordering `load_packs` sorts by: the comparator
`b.updated_at.cmp(&a.updated_at)`, i.e. `updated_at` descending under plain
lexicographic string comparison (not a parsed datetime compare). -/
def updGE (a b : RulePack) : Prop := strLe b.updated_at a.updated_at = true

instance : DecidableRel updGE := fun a b =>
  inferInstanceAs (Decidable (strLe b.updated_at a.updated_at = true))

/-- The parse phase of `load_packs`: keep the entries whose extension is
`json` and whose contents read and parse as a `RulePack`, in enumeration
order; everything else is silently skipped. -/
def parsedPacks (entries : List DirEntry) : List RulePack :=
  entries.filterMap fun e =>
    if e.ext = some "json" then e.content.bind parseRulePack else none

/-- Model of `load_packs`: parse the directory's entries, then sort by `updated_at`
descending with `sort_by` (a stable sort, modelled by the stable
`List.insertionSort`). -/
def load_packs (entries : List DirEntry) : List RulePack :=
  List.insertionSort updGE (parsedPacks entries)

/-- Model of `delete_pack`: the packs directory is modelled by the list of its file
names (distinct, as in a real directory). If `<id>.json` is present,
`remove_file` removes exactly that file and the call returns `true`;
otherwise the directory is untouched and the call returns `false`. The
result pairs the return value with the new directory contents. -/
def delete_pack (dir : List String) (id : String) : Bool × List String :=
  let path := id ++ ".json"
  if path ∈ dir then (true, dir.filter (fun f => f != path))
  else (false, dir)

/-- Model of `export_for_memochat`: project the pack onto the external schema
`\x7b systemPrompt, rules: [\x7b title, updateRule \x7d] \x7d`. -/
def export_for_memochat (p : RulePack) : Json :=
  .obj [("systemPrompt", .str p.system_prompt),
        ("rules", .arr (p.rules.map fun r =>
          .obj [("title", .str r.title), ("updateRule", .str r.update_rule)]))]

/-- Extraction of one external `rules[]` element in the file-discovery
import: `description` → `title`, `update_rule` → `update_rule`; `none` when
either field is missing or not a string. -/
def externalRule (r : Json) : Option MemoRule := do
  let title ← (r.getField "description").asStr
  let update_rule ← (r.getField "update_rule").asStr
  pure { title, update_rule }

/-- Extraction of one external `memos[]` element in the file-discovery
import. -/
def externalMemo (m : Json) : Option Memo := do
  let title ← (m.getField "title").asStr
  let content ← (m.getField "content").asStr
  pure { title, content }

/-- Model of `import_from_memochat`: file-discovery companion import. The companion
`memo-pack.json` file's state is `none` when the file is absent,
`some (.error e)` when its text fails to parse as JSON (`e` the library's
message; an unreadable file errors analogously), and `some (.ok v)` for the
parsed value `v`. `millis` and `now` stand for the two `chrono::Local::now()`
readings used for the generated id and the timestamps. -/
def import_from_memochat (file : Option (Except String Json)) (millis : Int)
    (now : String) : Except String RulePack :=
  match file with
  | none => .error "MemoChat memo-pack.json not found. Please make sure MemoChat is installed and has been run at least once."
  | some (.error e) => .error ("Failed to parse memo-pack.json: " ++ e)
  | some (.ok val) =>
    let rules : List MemoRule :=
      ((val.getField "rules").asArr.map fun arr => arr.filterMap externalRule).getD []
    let memos : List Memo :=
      ((val.getField "memos").asArr.map fun arr => arr.filterMap externalMemo).getD []
    .ok { id := "imported_" ++ toString millis,
          name := "Imported from MemoChat",
          description := "Current memo pack from MemoChat",
          author := "",
          version := "1.0.0",
          system_prompt := "",
          rules := rules, memos := memos,
          tags := ["imported", "memochat"],
          created_at := now, updated_at := now }

/-- Extraction of one `rules[]` element in the inline-text import variant:
`title` and `updateRule`, name-for-name; `none` when either is missing or
not a string. -/
def inlineRule (r : Json) : Option MemoRule := do
  let title ← (r.getField "title").asStr
  let update_rule ← (r.getField "updateRule").asStr
  pure { title, update_rule }

/-- Modelled from the spec: the inline-text companion-import variant is not
present under `src/` (the file only has the file-discovery variant). Per the
spec it accepts raw JSON text directly from the caller with no filesystem
lookup, parses it as `\x7b systemPrompt, rules: [\x7b title, updateRule \x7d] \x7d`
mapping fields name-for-name, silently drops elements missing `title` or
`updateRule`, and synthesizes the same metadata as the file-discovery
variant (with `description` and `memos` not populated). -/
def import_memochat_text (j : Json) (millis : Int) (now : String) : RulePack :=
  { id := "imported_" ++ toString millis,
    name := "Imported from MemoChat",
    description := "",
    author := "",
    version := "1.0.0",
    system_prompt := (j.getField "systemPrompt").asStr.getD "",
    rules := ((j.getField "rules").asArr.getD []).filterMap inlineRule,
    memos := [],
    tags := ["imported", "memochat"],
    created_at := now, updated_at := now }

/-- A minimal pack used for concrete tests: given id and `updated_at`. -/
def samplePack (i u : String) : RulePack :=
  { id := i, name := "P", description := "", author := "", version := "1",
    system_prompt := "", rules := [], memos := [], tags := [],
    created_at := "", updated_at := u }

/-- The spec's inline-import example text,
`\x7b"systemPrompt":"S","rules":[\x7b"title":"T","updateRule":"U"\x7d]\x7d`. -/
def inlineExample : Json :=
  .obj [("systemPrompt", .str "S"),
        ("rules", .arr [.obj [("title", .str "T"), ("updateRule", .str "U")]])]

theorem mapOption_ruleJson (rs : List MemoRule) :
    mapOption parseMemoRule (rs.map memoRuleToJson) = some rs := by
  induction rs with
  | nil => rfl
  | cons r rs ih =>
    simp [mapOption, parseMemoRule, memoRuleToJson, reqStr, lookupField,
      Json.asObj, Json.asStr, ih]

theorem mapOption_memoJson (ms : List Memo) :
    mapOption parseMemo (ms.map memoToJson) = some ms := by
  induction ms with
  | nil => rfl
  | cons m ms ih =>
    simp [mapOption, parseMemo, memoToJson, reqStr, lookupField,
      Json.asObj, Json.asStr, ih]

theorem mapOption_strJson (ts : List String) :
    mapOption Json.asStr (ts.map Json.str) = some ts := by
  induction ts with
  | nil => rfl
  | cons t ts ih => simp [mapOption, Json.asStr, ih]

theorem parseRulePack_rulePackToJson (p : RulePack) :
    parseRulePack (rulePackToJson p) = some p := by
  have h : parseRulePack (rulePackToJson p) =
      (mapOption parseMemoRule (p.rules.map memoRuleToJson)).bind fun rules =>
      (mapOption parseMemo (p.memos.map memoToJson)).bind fun memos =>
      (mapOption Json.asStr (p.tags.map Json.str)).bind fun tags =>
      some { id := p.id, name := p.name, description := p.description,
             author := p.author, version := p.version,
             system_prompt := p.system_prompt, rules := rules, memos := memos,
             tags := tags, created_at := p.created_at,
             updated_at := p.updated_at } := rfl
  rw [h, mapOption_ruleJson, mapOption_memoJson, mapOption_strJson]
  rfl

theorem lexLe_refl : ∀ as : List Char, lexLe as as = true
  | [] => rfl
  | a :: as => by simp [lexLe, lt_irrefl, lexLe_refl as]

theorem lexLe_total : ∀ as bs : List Char, lexLe as bs = true ∨ lexLe bs as = true
  | [], _ => Or.inl rfl
  | _ :: _, [] => Or.inr rfl
  | a :: as, b :: bs => by
    by_cases hab : a < b
    · left; simp [lexLe, hab]
    · by_cases hba : b < a
      · right; simp [lexLe, hba]
      · rcases lexLe_total as bs with h | h
        · left; simp [lexLe, hab, hba, h]
        · right; simp [lexLe, hab, hba, h]

theorem lexLe_trans :
    ∀ as bs cs : List Char,
      lexLe as bs = true → lexLe bs cs = true → lexLe as cs = true
  | [], _, _, _, _ => rfl
  | _ :: _, [], _, h1, _ => by simp [lexLe] at h1
  | _ :: _, _ :: _, [], _, h2 => by simp [lexLe] at h2
  | a :: as, b :: bs, c :: cs, h1, h2 => by
    simp only [lexLe] at h1 h2 ⊢
    by_cases hab : a < b
    · by_cases hbc : b < c
      · simp [lt_trans hab hbc]
      · by_cases hcb : c < b
        · rw [if_neg hbc, if_pos hcb] at h2; exact absurd h2 (by simp)
        · have hb : b = c := le_antisymm (not_lt.mp hcb) (not_lt.mp hbc)
          subst hb
          simp [hab]
    · by_cases hba : b < a
      · rw [if_neg hab, if_pos hba] at h1; exact absurd h1 (by simp)
      · have ha : a = b := le_antisymm (not_lt.mp hba) (not_lt.mp hab)
        subst ha
        rw [if_neg hab, if_neg hba] at h1
        by_cases hac : a < c
        · simp [hac]
        · by_cases hca : c < a
          · rw [if_neg hac, if_pos hca] at h2; exact absurd h2 (by simp)
          · rw [if_neg hac, if_neg hca] at h2 ⊢
            exact lexLe_trans as bs cs h1 h2

theorem ne_of_strLe_false {s t : String} (h : strLe s t = false) : s ≠ t := by
  intro he
  subst he
  simp [strLe, lexLe_refl] at h

theorem filter_eq_orderedInsert (k : String) (a : RulePack) (l : List RulePack) :
    (List.orderedInsert updGE a l).filter (fun x => x.updated_at == k) =
      (if a.updated_at = k then [a] else []) ++
        l.filter (fun x => x.updated_at == k) := by
  induction l with
  | nil => by_cases h : a.updated_at = k <;> simp [List.orderedInsert, h]
  | cons b l ih =>
    by_cases hab : updGE a b
    · simp only [List.orderedInsert, if_pos hab]
      by_cases h : a.updated_at = k <;> by_cases h2 : b.updated_at = k <;>
        simp [h, h2]
    · have hfalse : strLe b.updated_at a.updated_at = false := by
        revert hab
        unfold updGE
        cases strLe b.updated_at a.updated_at <;> simp
      have hne : b.updated_at ≠ a.updated_at := ne_of_strLe_false hfalse
      simp only [List.orderedInsert, if_neg hab]
      by_cases h2 : b.updated_at = k
      · have h : a.updated_at ≠ k := fun hh => hne (h2.trans hh.symm)
        simp [h, h2, ih]
      · simp [h2, ih]

theorem filter_eq_insertionSort (k : String) (l : List RulePack) :
    (List.insertionSort updGE l).filter (fun x => x.updated_at == k) =
      l.filter (fun x => x.updated_at == k) := by
  induction l with
  | nil => rfl
  | cons a l ih =>
    simp only [List.insertionSort]
    rw [filter_eq_orderedInsert, ih]
    by_cases h : a.updated_at = k <;> simp [h]

/-- Claim C1: for every `RulePack` value (including packs with empty string
fields and zero or more rules and tags), parsing the output of `export_pack`
with `import_pack_json` succeeds and returns a pack equal to the original. -/
theorem export_then_import_roundtrip (p : RulePack) :
    import_pack_json (export_pack p) = .ok p := by
  unfold import_pack_json export_pack
  rw [parseRulePack_rulePackToJson]

/-- Claim C2: `load_packs` returns the successfully parsed packs sorted by
the `updated_at` string descending under plain lexicographic comparison
(`List.Pairwise`), the result is a permutation of the parsed packs, packs
with equal `updated_at` keep their relative enumeration order (every
equal-key fibre of the output equals that of the parse-phase output), and
on the spec's example timestamps "2024-01-02", "2024-01-01", "" the packs
come out in exactly that order. -/
theorem load_packs_sorted_stable :
    (∀ entries : List DirEntry,
        List.Pairwise (fun a b => strLe b.updated_at a.updated_at = true)
          (load_packs entries)
      ∧ (load_packs entries).Perm (parsedPacks entries)
      ∧ ∀ k : String,
          (load_packs entries).filter (fun x => x.updated_at == k) =
            (parsedPacks entries).filter (fun x => x.updated_at == k))
  ∧ load_packs
      [⟨some "json", some (rulePackToJson (samplePack "c" ""))⟩,
       ⟨some "json", some (rulePackToJson (samplePack "a" "2024-01-02"))⟩,
       ⟨some "json", some (rulePackToJson (samplePack "b" "2024-01-01"))⟩]
      = [samplePack "a" "2024-01-02", samplePack "b" "2024-01-01",
         samplePack "c" ""] := by
  constructor
  · intro entries
    haveI : IsTotal RulePack updGE := ⟨fun a b => lexLe_total _ _⟩
    haveI : IsTrans RulePack updGE := ⟨fun _ _ _ h1 h2 => lexLe_trans _ _ _ h2 h1⟩
    exact ⟨List.sorted_insertionSort updGE (parsedPacks entries),
           List.perm_insertionSort updGE (parsedPacks entries),
           fun k => filter_eq_insertionSort k (parsedPacks entries)⟩
  · decide

/-- Claim C3: the file-discovery companion import fails with the
descriptive not-found error when the companion file is absent; when the
file is present and parses, each `rules[]` element with string fields
`description` and `update_rule` contributes a `MemoRule` (and each
`memos[]` element with string `title` and `content` a `Memo`), elements
missing a required string field being silently dropped — so a `rules`
array with one well-formed element and one element missing `update_rule`
yields exactly one `MemoRule`. -/
theorem memochat_file_import_spec :
    (∀ (millis : Int) (now : String),
        import_from_memochat none millis now =
          .error "MemoChat memo-pack.json not found. Please make sure MemoChat is installed and has been run at least once.")
  ∧ (∀ (millis : Int) (now : String) (val : Json) (rs : List Json),
        (val.getField "rules").asArr = some rs →
        ∃ p, import_from_memochat (some (.ok val)) millis now = .ok p ∧
          p.rules = rs.filterMap externalRule)
  ∧ (∀ (millis : Int) (now : String) (val : Json) (ms : List Json),
        (val.getField "memos").asArr = some ms →
        ∃ p, import_from_memochat (some (.ok val)) millis now = .ok p ∧
          p.memos = ms.filterMap externalMemo)
  ∧ (∀ t u, externalRule
        (Json.obj [("description", .str t), ("update_rule", .str u)]) =
        some { title := t, update_rule := u })
  ∧ (∀ t c, externalMemo (Json.obj [("title", .str t), ("content", .str c)]) =
        some { title := t, content := c })
  ∧ (∀ r, (r.getField "description").asStr = none → externalRule r = none)
  ∧ (∀ r, (r.getField "update_rule").asStr = none → externalRule r = none)
  ∧ ((import_from_memochat (some (.ok (Json.obj [("rules", Json.arr
        [Json.obj [("description", .str "A"), ("update_rule", .str "B")],
         Json.obj [("description", .str "C")]])]))) 0 "").map RulePack.rules
      = .ok [{ title := "A", update_rule := "B" }]) := by
  refine ⟨fun millis now => rfl, ?_, ?_, fun t u => rfl, fun t c => rfl,
          ?_, ?_, rfl⟩
  · intro millis now val rs h
    refine ⟨_, rfl, ?_⟩
    simp [import_from_memochat, h]
  · intro millis now val ms h
    refine ⟨_, rfl, ?_⟩
    simp [import_from_memochat, h]
  · intro r h
    simp [externalRule, h]
  · intro r h
    cases hd : (r.getField "description").asStr <;> simp [externalRule, h, hd]

/-- Witness for claim C3's conditional parts, at concrete companion files. -/
theorem memochat_file_import_spec_witness :
    (∃ p, import_from_memochat (some (.ok (Json.obj [("rules", Json.arr
          [Json.obj [("description", Json.str "A"), ("update_rule", Json.str "B")]])])))
          1 "t" = .ok p
      ∧ p.rules = [Json.obj [("description", Json.str "A"),
          ("update_rule", Json.str "B")]].filterMap externalRule)
  ∧ (∃ p, import_from_memochat (some (.ok (Json.obj [("memos", Json.arr [])])))
          1 "t" = .ok p
      ∧ p.memos = ([] : List Json).filterMap externalMemo)
  ∧ externalRule Json.null = none
  ∧ externalRule (Json.obj [("description", Json.str "C")]) = none :=
  ⟨memochat_file_import_spec.2.1 1 "t" _ _ rfl,
   memochat_file_import_spec.2.2.1 1 "t" _ [] rfl,
   memochat_file_import_spec.2.2.2.2.2.1 Json.null rfl,
   memochat_file_import_spec.2.2.2.2.2.2.1 _ rfl⟩

/-- Claim C4 (modelled from the spec): the inline-text companion import
accepts raw JSON text directly, with no filesystem lookup, maps
`systemPrompt` and `rules[].title`/`updateRule` name-for-name, silently
drops rule elements missing `title` or `updateRule`, and on the spec's
example input yields `system_prompt = "S"`, exactly one rule
`(title "T", update_rule "U")`, an "imported" tag, and an id starting with
`"imported_"`. -/
theorem memochat_inline_import_spec :
    (∀ (j : Json) (millis : Int) (now : String) (rs : List Json),
        (j.getField "rules").asArr = some rs →
        (import_memochat_text j millis now).rules = rs.filterMap inlineRule)
  ∧ (∀ r, (r.getField "title").asStr = none → inlineRule r = none)
  ∧ (∀ r, (r.getField "updateRule").asStr = none → inlineRule r = none)
  ∧ (∀ (millis : Int) (now : String),
        (import_memochat_text inlineExample millis now).system_prompt = "S"
      ∧ (import_memochat_text inlineExample millis now).rules =
          [{ title := "T", update_rule := "U" }]
      ∧ "imported" ∈ (import_memochat_text inlineExample millis now).tags
      ∧ ∃ rest, (import_memochat_text inlineExample millis now).id =
          "imported_" ++ rest) := by
  refine ⟨?_, ?_, ?_, ?_⟩
  · intro j millis now rs h
    simp [import_memochat_text, h]
  · intro r h
    simp [inlineRule, h]
  · intro r h
    cases ht : (r.getField "title").asStr <;> simp [inlineRule, h, ht]
  · intro millis now
    refine ⟨rfl, rfl, ?_, ⟨toString millis, rfl⟩⟩
    simp [import_memochat_text]

/-- Witness for claim C4's conditional parts. -/
theorem memochat_inline_import_spec_witness :
    (import_memochat_text inlineExample 7 "t").rules =
      [Json.obj [("title", Json.str "T"),
        ("updateRule", Json.str "U")]].filterMap inlineRule
  ∧ inlineRule Json.null = none
  ∧ inlineRule (Json.obj [("title", Json.str "T")]) = none :=
  ⟨memochat_inline_import_spec.1 inlineExample 7 "t" _ rfl,
   memochat_inline_import_spec.2.1 Json.null rfl,
   memochat_inline_import_spec.2.2.1 (Json.obj [("title", Json.str "T")]) rfl⟩

/-- Claim C5: every successful companion import synthesizes the fixed
metadata — id `"imported_"` followed by the epoch-milliseconds clock
reading, name "Imported from MemoChat", empty author, version "1.0.0", the
fixed provenance tag set, and `created_at = updated_at =` the current local
timestamp reading (whose `YYYY-MM-DDTHH:MM:SS` formatting is the clock
library's and is abstracted as the `now` parameter). -/
theorem memochat_import_metadata (file : Option (Except String Json))
    (millis : Int) (now : String) (p : RulePack)
    (h : import_from_memochat file millis now = .ok p) :
    p.id = "imported_" ++ toString millis
    ∧ p.name = "Imported from MemoChat"
    ∧ p.author = ""
    ∧ p.version = "1.0.0"
    ∧ p.tags = ["imported", "memochat"]
    ∧ p.created_at = now ∧ p.updated_at = now := by
  match file with
  | none => simp [import_from_memochat] at h
  | some (.error e) => simp [import_from_memochat] at h
  | some (.ok val) =>
    simp only [import_from_memochat, Except.ok.injEq] at h
    subst h
    exact ⟨rfl, rfl, rfl, rfl, rfl, rfl, rfl⟩

/-- Witness for claim C5 at a concrete successful import. -/
theorem memochat_import_metadata_witness :
    ∃ p : RulePack,
      import_from_memochat (some (.ok Json.null)) 0 "T" = .ok p
      ∧ (p.id = "imported_" ++ toString (0 : Int)
         ∧ p.name = "Imported from MemoChat"
         ∧ p.author = ""
         ∧ p.version = "1.0.0"
         ∧ p.tags = ["imported", "memochat"]
         ∧ p.created_at = "T" ∧ p.updated_at = "T") :=
  ⟨_, rfl, memochat_import_metadata (some (.ok Json.null)) 0 "T" _ rfl⟩

/-- Claim C6: `load_config` never fails — a missing file, a file whose text
does not parse as JSON, and JSON not fitting the `Config` shape all yield
the all-empty/false default `Config`; in particular a file holding only an
`api_key` field (the other required string fields missing) yields the full
defaults rather than a partially populated record. -/
theorem load_config_defaults :
    load_config none = defaultConfig
  ∧ load_config (some none) = defaultConfig
  ∧ (∀ j, parseConfig j = none → load_config (some (some j)) = defaultConfig)
  ∧ parseConfig (Json.obj [("api_key", Json.str "x")]) = none
  ∧ load_config (some (some (Json.obj [("api_key", Json.str "x")]))) = defaultConfig
  ∧ defaultConfig = { api_key := "", model_id := "", base_url := "", reasoning_enabled := false, channels_json := "" } := by
  refine ⟨rfl, rfl, ?_, rfl, rfl, rfl⟩
  intro j h
  simp [load_config, h]

/-- Witness for claim C6's conditional part. -/
theorem load_config_defaults_witness :
    load_config (some (some (Json.bool true))) = defaultConfig :=
  load_config_defaults.2.2.1 (Json.bool true) rfl

/-- Claim C7: `delete_pack` on an absent `<id>.json` returns `false` with
the packs directory unchanged; on a present one it returns `true`,
afterwards the file is gone, and every other file is untouched. -/
theorem delete_pack_spec (dir : List String) (id : String) :
    ((id ++ ".json") ∉ dir → delete_pack dir id = (false, dir))
  ∧ ((id ++ ".json") ∈ dir →
      (delete_pack dir id).1 = true
      ∧ (id ++ ".json") ∉ (delete_pack dir id).2
      ∧ ∀ f, f ≠ id ++ ".json" → ((f ∈ (delete_pack dir id).2) ↔ f ∈ dir)) := by
  constructor
  · intro h
    simp [delete_pack, h]
  · intro h
    refine ⟨by simp [delete_pack, h], ?_, ?_⟩
    · simp [delete_pack, h, List.mem_filter]
    · intro f hf
      simp [delete_pack, h, List.mem_filter, hf]

/-- Witness for claim C7 on a one-file directory. -/
theorem delete_pack_spec_witness :
    delete_pack ["a.json"] "b" = (false, ["a.json"])
  ∧ (delete_pack ["a.json"] "a").1 = true
  ∧ "a.json" ∉ (delete_pack ["a.json"] "a").2 :=
  ⟨(delete_pack_spec ["a.json"] "b").1 (by decide),
   ((delete_pack_spec ["a.json"] "a").2 (by decide)).1,
   ((delete_pack_spec ["a.json"] "a").2 (by decide)).2.1⟩

/-- Claim C8: `export_for_memochat` emits exactly the keys `systemPrompt`
and `rules`, each rule element an object holding only `title` and
`updateRule` taken from the corresponding `MemoRule`; the output is a
function of `system_prompt` and `rules` alone, so the pack's id,
description, author, version, tags and timestamps appear nowhere in it. -/
theorem export_for_memochat_projection :
    (∀ p : RulePack,
        (export_for_memochat p).topKeys = ["systemPrompt", "rules"])
  ∧ (∀ p : RulePack,
        (export_for_memochat p).getField "systemPrompt" =
          Json.str p.system_prompt)
  ∧ (∀ p : RulePack,
        (export_for_memochat p).getField "rules" =
          Json.arr (p.rules.map fun r =>
            Json.obj [("title", Json.str r.title),
                      ("updateRule", Json.str r.update_rule)]))
  ∧ (∀ r : MemoRule,
        (Json.obj [("title", Json.str r.title),
          ("updateRule", Json.str r.update_rule)]).topKeys =
          ["title", "updateRule"])
  ∧ (∃ f : String × List MemoRule → Json,
        ∀ p : RulePack, export_for_memochat p = f (p.system_prompt, p.rules)) :=
  ⟨fun _ => rfl, fun _ => rfl, fun _ => rfl, fun _ => rfl,
   ⟨fun x : String × List MemoRule =>
      Json.obj [("systemPrompt", Json.str x.1),
        ("rules", Json.arr (x.2.map fun r : MemoRule =>
          Json.obj [("title", Json.str r.title),
                    ("updateRule", Json.str r.update_rule)]))],
    fun _ => rfl⟩⟩

/-- Claim C9: the persisted `Config` carries a fifth field `channels_json`
beyond the four in the spec's data model: it is `""` for a missing or
unparsable file, defaults to `""` when the key is absent from otherwise
valid config JSON, and `save_config` accepts and writes it, so a save/load
round trip preserves it. -/
theorem config_channels_json_field :
    (load_config none).channels_json = ""
  ∧ (load_config (some none)).channels_json = ""
  ∧ parseConfig (Json.obj [("api_key", Json.str "a"), ("model_id", Json.str "m"),
      ("base_url", Json.str "b"), ("reasoning_enabled", Json.bool true)]) =
      some { api_key := "a", model_id := "m", base_url := "b",
             reasoning_enabled := true, channels_json := "" }
  ∧ (∀ k m b r ch,
      (save_config k m b r ch).1.getField "channels_json" = Json.str ch)
  ∧ (∀ k m b r ch, load_config (some (some (save_config k m b r ch).1)) =
      { api_key := k, model_id := m, base_url := b,
        reasoning_enabled := r, channels_json := ch }) :=
  ⟨rfl, rfl, rfl, fun _ _ _ _ _ => rfl, fun _ _ _ _ _ => rfl⟩

/-- Claim C10: `RulePack` carries a `memos` sequence of title/content pairs
absent from the spec's data model: JSON with all required fields but no
`memos` key deserializes with `memos = []`, and the export/import round
trip preserves the memos' contents. -/
theorem rulepack_memos_field :
    (∀ p : RulePack,
        (import_pack_json (export_pack p)).map RulePack.memos = .ok p.memos)
  ∧ parseRulePack (Json.obj [("id", Json.str "i"), ("name", Json.str "n"),
      ("description", Json.str "d"), ("author", Json.str "a"),
      ("version", Json.str "v"), ("system_prompt", Json.str "s"),
      ("rules", Json.arr [])]) =
      some { id := "i", name := "n", description := "d", author := "a",
             version := "v", system_prompt := "s", rules := [], memos := [],
             tags := [], created_at := "", updated_at := "" } := by
  constructor
  · intro p
    unfold import_pack_json export_pack
    rw [parseRulePack_rulePackToJson]
    rfl
  · rfl
